import Mathlib

/-!
Shallow embedding of the Scheduling & Availability Engine of the
`aws_backend` repository (src/controllers/appointmentController.js and
src/controllers/doctorController.js).

DynamoDB items are modelled as attribute maps: association lists from
attribute name to string value, observed only through `getAttr`
(`List.lookup`, first binding wins, so a SET is modelled by prepending).
A table is a list of items.  All appointment attribute values in the
source are strings, so values are `String`.
JavaScript truthiness on an optional string field (`if (x)`, `a || b`)
is modelled by `truthy` / `jsOr`: absent (`none`) and the empty string
are falsy.
-/

namespace AwsBackend

/-- A DynamoDB item: attribute name ↦ string value, first binding wins. -/
abbrev Item := List (String × String)

/-- A DynamoDB table: a list of items. -/
abbrev Store := List Item

/-- Attribute read: `item.attr` / DynamoDB attribute access. -/
def getAttr (it : Item) (k : String) : Option String :=
  it.lookup k

/-- DynamoDB `SET k = v` on an item map (prepend; `getAttr` sees the
newest binding). -/
def setAttr (it : Item) (k : String) (v : String) : Item :=
  (k, v) :: it

/-- JavaScript truthiness of an optional string: `undefined` and `""`
are falsy. -/
def truthy : Option String → Bool
  | some s => !(s == "")
  | none => false

/-- JavaScript `a || b` on optional strings. -/
def jsOr (a b : Option String) : Option String :=
  if truthy a then a else b

/-- Error outcomes surfaced by the controllers (HTTP 400 / 404 / 409 /
500 respectively). -/
inductive ApiError where
  | validationError
  | notFoundError
  | conflictError
  | storeError
deriving DecidableEq, Repr

/-- appointmentController.js lines 126-139: the Create conflict query —
same `doctorId` and `appointmentDate` (key condition on
DoctorScheduleIndex) with `appointmentTime = :appointmentTime` as the
filter expression.  No condition on `status`, no identifier exclusion. -/
def createConflictQuery (store : Store) (doctorId appointmentDate appointmentTime : String) :
    List Item :=
  store.filter (fun it =>
    getAttr it "doctorId" == some doctorId &&
    getAttr it "appointmentDate" == some appointmentDate &&
    getAttr it "appointmentTime" == some appointmentTime)

/-- appointmentController.js lines 208-219: the Update conflict query —
same key condition, filter `appointmentTime = :appointmentTime AND
appointmentId <> :currentId`.  A DynamoDB `<>` comparison is false when
the attribute is absent.  No condition on `status`. -/
def updateConflictQuery (store : Store) (doctorId appointmentDate appointmentTime currentId : String) :
    List Item :=
  store.filter (fun it =>
    getAttr it "doctorId" == some doctorId &&
    getAttr it "appointmentDate" == some appointmentDate &&
    getAttr it "appointmentTime" == some appointmentTime &&
    (match getAttr it "appointmentId" with
     | some x => !(x == currentId)
     | none => false))

/-- DynamoDB `PutCommand`: replaces any item with the same primary key
`appointmentId`. -/
def putItem (store : Store) (it : Item) : Store :=
  it :: store.filter (fun x => !(getAttr x "appointmentId" == getAttr it "appointmentId"))

/-- appointmentController.js lines 149-160: the record built on Create. -/
def newAppointment (patientId doctorId appointmentDate appointmentTime appointmentType notes : String)
    (freshId now : String) : Item :=
  [("appointmentId", freshId), ("patientId", patientId), ("doctorId", doctorId),
   ("appointmentDate", appointmentDate), ("appointmentTime", appointmentTime),
   ("appointmentType", appointmentType), ("notes", notes), ("status", "scheduled"),
   ("createdAt", now), ("updatedAt", now)]

/-- appointmentController.js lines 107-173 (`createAppointment`):
validation of the four required fields by JS truthiness, the conflict
query, then the `PutCommand` of the freshly built record.  `freshId`
stands for `uuidv4()` and `now` for `new Date().toISOString()`. -/
def createAppointment (store : Store)
    (patientId doctorId appointmentDate appointmentTime appointmentType notes : String)
    (freshId now : String) : Except ApiError (Store × Item) :=
  if patientId == "" || doctorId == "" || appointmentDate == "" || appointmentTime == "" then
    .error .validationError
  else if !(createConflictQuery store doctorId appointmentDate appointmentTime).isEmpty then
    .error .conflictError
  else
    let appointment :=
      newAppointment patientId doctorId appointmentDate appointmentTime appointmentType notes freshId now
    .ok (putItem store appointment, appointment)

/-- Primary-key predicate used by `GetCommand`/`UpdateCommand` on the
Appointments table. -/
def idMatches (id : String) (it : Item) : Bool :=
  getAttr it "appointmentId" == some id

/-- appointmentController.js lines 238-244: the `forEach` over the
update payload — every key except `appointmentId` and `createdAt` is
written (`SET #k = :k`). -/
def applyUpdates (it : Item) (updates : List (String × String)) : Item :=
  updates.foldl
    (fun acc kv =>
      if kv.1 == "appointmentId" || kv.1 == "createdAt" then acc
      else setAttr acc kv.1 kv.2)
    it

/-- The written record of an Update: `SET updatedAt = :updatedAt` plus
the payload writes. -/
def updatedRecord (it : Item) (updates : List (String × String)) (now : String) : Item :=
  applyUpdates (setAttr it "updatedAt" now) updates

/-- appointmentController.js lines 231-255: the `UpdateCommand` write.
If the payload itself carries an `updatedAt` key, the built expression
holds two overlapping `updatedAt` paths and DynamoDB rejects the whole
request (500, no write); otherwise the item with that primary key is
rewritten and the new record returned (`ReturnValues: ALL_NEW`). -/
def performWrite (store : Store) (id : String) (existing : Item)
    (updates : List (String × String)) (now : String) : Except ApiError (Store × Item) :=
  if (updates.lookup "updatedAt").isSome then .error .storeError
  else
    .ok (store.map (fun it => if idMatches id it then updatedRecord it updates now else it),
         updatedRecord existing updates now)

/-- appointmentController.js lines 186-261 (`updateAppointment`):
`GetCommand` existence check (404 when absent); when the payload holds a
truthy `appointmentDate` or `appointmentTime`, the conflict query over
the effective `updates.x || existing.x` values (409 when non-empty; a
`none` effective value would be an undefined expression value, rejected
by the document client, surfaced as 500); then the write. -/
def updateAppointment (store : Store) (id : String)
    (updates : List (String × String)) (now : String) : Except ApiError (Store × Item) :=
  match store.find? (idMatches id) with
  | none => .error .notFoundError
  | some existing =>
    let proceed : Except ApiError (Store × Item) := performWrite store id existing updates now
    if truthy (updates.lookup "appointmentDate") || truthy (updates.lookup "appointmentTime") then
      match jsOr (updates.lookup "doctorId") (getAttr existing "doctorId"),
            jsOr (updates.lookup "appointmentDate") (getAttr existing "appointmentDate"),
            jsOr (updates.lookup "appointmentTime") (getAttr existing "appointmentTime") with
      | some d, some dt, some t =>
        if !(updateConflictQuery store d dt t id).isEmpty then .error .conflictError
        else proceed
      | _, _, _ => .error .storeError
    else proceed

/-- appointmentController.js line 287: `cancellationReason || 'No reason
provided'`. -/
def cancelReason : Option String → String
  | some s => if s == "" then "No reason provided" else s
  | none => "No reason provided"

/-- The attribute writes of the Cancel `UpdateCommand`: `SET #status =
'cancelled', cancellationReason = reason, updatedAt = now`. -/
def cancelTransform (reason now : String) (it : Item) : Item :=
  setAttr (setAttr (setAttr it "status" "cancelled") "cancellationReason" reason) "updatedAt" now

/-- appointmentController.js lines 273-299 (`cancelAppointment`): a bare
`UpdateCommand` with no existence check and no condition expression.
DynamoDB upserts: when the key exists the sets are applied to that item;
when it does not, a fresh item holding only the key and the written
attributes is created. -/
def cancelAppointment (store : Store) (id : String) (reason : Option String) (now : String) :
    Store × Item :=
  match store.find? (idMatches id) with
  | some existing =>
    (store.map (fun it => if idMatches id it then cancelTransform (cancelReason reason) now it else it),
     cancelTransform (cancelReason reason) now existing)
  | none =>
    let fresh := cancelTransform (cancelReason reason) now [("appointmentId", id)]
    (store ++ [fresh], fresh)

/-- appointmentController.js lines 311-339 (`getDoctorAppointments`):
key condition `doctorId = :doctorId` plus `appointmentDate = :date` when
a truthy `date` is supplied, and filter expression
`appointmentStatus = :status` when a truthy `status` is supplied.  Note
the filter reads the attribute named `appointmentStatus`, not `status`. -/
def getDoctorAppointments (store : Store) (doctorId : String) (date status : Option String) :
    List Item :=
  let base := store.filter (fun it =>
    getAttr it "doctorId" == some doctorId &&
    (if truthy date then getAttr it "appointmentDate" == date else true))
  if truthy status then
    base.filter (fun it => getAttr it "appointmentStatus" == status)
  else base

/-- doctorController.js lines 293-302: the schedule range query —
`doctorId = :doctorId AND appointmentDate BETWEEN :startDate AND
:endDate` (DynamoDB BETWEEN is inclusive, lexicographic on strings).  No
condition on `status`. -/
def doctorRangeQuery (store : Store) (doctorId startDate endDate : String) : List Item :=
  store.filter (fun it =>
    getAttr it "doctorId" == some doctorId &&
    (match getAttr it "appointmentDate" with
     | some d => decide (startDate ≤ d) && decide (d ≤ endDate)
     | none => false))

/-- JavaScript key coercion for `schedule[appointment.appointmentDate]`:
an absent attribute coerces to the string "undefined". -/
def dateKey (it : Item) : String :=
  (getAttr it "appointmentDate").getD "undefined"

/-- One step of the grouping loop (doctorController.js lines 324-329):
push the appointment onto the bucket of its date, creating the bucket at
the end when absent (JS object keys keep insertion order). -/
def pushAppt : List (String × List Item) → String → Item → List (String × List Item)
  | [], d, a => [(d, [a])]
  | (k, l) :: rest, d, a =>
    if k = d then (k, l ++ [a]) :: rest
    else (k, l) :: pushAppt rest d a

/-- doctorController.js lines 323-329: `data.Items.forEach(...)` building
the per-date schedule object. -/
def groupByDate (items : List Item) : List (String × List Item) :=
  items.foldl (fun sched it => pushAppt sched (dateKey it) it) []

/-- Reading one date's bucket out of the schedule object (`schedule[d]`,
`[]` when absent). -/
def listAt (sched : List (String × List Item)) (d : String) : List Item :=
  match sched.find? (fun p => p.1 == d) with
  | some p => p.2
  | none => []

/-- doctorController.js lines 281-338 (`getDoctorSchedule`), the
Schedule Aggregator `buildSchedule`: range query then grouping by
`appointmentDate`. -/
def buildSchedule (store : Store) (doctorId startDate endDate : String) :
    List (String × List Item) :=
  groupByDate (doctorRangeQuery store doctorId startDate endDate)

/-- appointmentController.js lines 407-419: the candidate generation
loop, in minutes since midnight — `while (startTime < endTime)` emit the
candidate and advance by `slotDuration` minutes.  The source never runs
it with a zero duration (`slotDuration || 30` is never 0); the `dur = 0`
guard only bounds the recursion. -/
def slotTimes (dur finish start : Nat) : List Nat :=
  if start < finish then
    if dur = 0 then []
    else start :: slotTimes dur finish (start + dur)
  else []
termination_by finish - start
decreasing_by simp_wf; omega

/-- Two-digit zero padding of a number below 100. -/
def pad2 (n : Nat) : String :=
  if n < 10 then "0" ++ toString n else toString n

/-- appointmentController.js lines 408-412: formatting a candidate as a
24-hour zero-padded "HH:MM" string (`toLocaleTimeString` with
`hour12: false`; all times of interest lie strictly between midnight and
24:00). -/
def minutesToHHMM (m : Nat) : String :=
  pad2 (m / 60) ++ ":" ++ pad2 (m % 60)

/-- appointmentController.js lines 403-419, the Availability Calculator
`computeAvailableSlots`: each candidate is kept unless its formatted
value occurs in the booked list (`bookedSlots.includes(timeSlot)`; a
booked entry is the appointment's `appointmentTime`, or `undefined` when
absent, which never equals a formatted string — hence `Option String`). -/
def computeAvailableSlots (startM finishM dur : Nat) (booked : List (Option String)) :
    List String :=
  ((slotTimes dur finishM startM).map minutesToHHMM).filter
    (fun s => !(booked.contains (some s)))

/-- appointmentController.js lines 386-401: the booked-times list — all
appointments of the doctor on the date, regardless of status, mapped to
their `appointmentTime`. -/
def bookedSlots (store : Store) (doctorId date : String) : List (Option String) :=
  (store.filter (fun it =>
    getAttr it "doctorId" == some doctorId &&
    getAttr it "appointmentDate" == some date)).map
    (fun it => getAttr it "appointmentTime")

/-- appointmentController.js line 400: `doctorData.Item.slotDuration ||
30` — absent or zero falls back to 30. -/
def effSlotDuration : Option Nat → Nat
  | some n => if n = 0 then 30 else n
  | none => 30

/-- appointmentController.js lines 357-428 (`getAvailableSlots`), the
read-side availability view: working hours in minutes since midnight,
duration from the doctor record, booked times from the unfiltered
(doctor, date) query. -/
def getAvailableSlots (store : Store) (doctorId date : String)
    (startM finishM : Nat) (dur : Option Nat) : List String :=
  computeAvailableSlots startM finishM (effSlotDuration dur) (bookedSlots store doctorId date)

/-! ### Concrete fixtures used by counterexamples and witnesses -/

/-- A scheduled appointment of doctor d1 at 10:00 on 2024-06-01. -/
def apptA1 : Item :=
  [("appointmentId", "A1"), ("patientId", "p1"), ("doctorId", "d1"),
   ("appointmentDate", "2024-06-01"), ("appointmentTime", "10:00"),
   ("status", "scheduled"), ("createdAt", "T0"), ("updatedAt", "T0")]

/-- A second scheduled appointment holding the same date and time as
`apptA1` but for doctor d2. -/
def apptB1 : Item :=
  [("appointmentId", "B1"), ("patientId", "p9"), ("doctorId", "d2"),
   ("appointmentDate", "2024-06-01"), ("appointmentTime", "10:00"),
   ("status", "scheduled"), ("createdAt", "T0"), ("updatedAt", "T0")]

/-- A scheduled appointment of doctor d1 colliding with `apptA1`. -/
def apptC1 : Item :=
  [("appointmentId", "C1"), ("patientId", "p4"), ("doctorId", "d1"),
   ("appointmentDate", "2024-06-01"), ("appointmentTime", "10:00"),
   ("status", "scheduled"), ("createdAt", "T0"), ("updatedAt", "T0")]

/-- A cancelled appointment of doctor d1 at 10:00 on 2024-06-01. -/
def apptCan : Item :=
  [("appointmentId", "A2"), ("patientId", "p2"), ("doctorId", "d1"),
   ("appointmentDate", "2024-06-01"), ("appointmentTime", "10:00"),
   ("status", "cancelled"), ("createdAt", "T0"), ("updatedAt", "T0")]

/-- A store holding only the cancelled appointment. -/
def cancelledOnly : Store := [apptCan]

/-- A store with appointments of two doctors sharing a date and time. -/
def twoDoctorStore : Store := [apptA1, apptB1]

/-- A store where doctor d1 is double-booked at 10:00. -/
def collisionStore : Store := [apptA1, apptC1]

/-! ### Helper lemmas -/

theorem getAttr_setAttr_self (it : Item) (k v : String) :
    getAttr (setAttr it k v) k = some v := by
  simp [getAttr, setAttr, List.lookup]

theorem getAttr_setAttr_ne (it : Item) (k v k' : String) (h : k' ≠ k) :
    getAttr (setAttr it k v) k' = getAttr it k' := by
  have hb : (k' == k) = false := beq_eq_false_iff_ne.mpr h
  simp [getAttr, setAttr, List.lookup, hb]

theorem getAttr_applyUpdates_of_forall_ne (updates : List (String × String)) (it : Item)
    (k : String) (h : ∀ p ∈ updates, p.1 ≠ k) :
    getAttr (applyUpdates it updates) k = getAttr it k := by
  induction updates generalizing it with
  | nil => rfl
  | cons hd tl ih =>
    have hhd : hd.1 ≠ k := h hd (List.mem_cons_self _ _)
    have htl : ∀ p ∈ tl, p.1 ≠ k := fun p hp => h p (List.mem_cons_of_mem _ hp)
    simp only [applyUpdates, List.foldl_cons] at *
    by_cases hskip : (hd.1 == "appointmentId" || hd.1 == "createdAt") = true
    · rw [if_pos hskip]; exact ih it htl
    · rw [if_neg hskip, ih _ htl, getAttr_setAttr_ne _ _ _ _ (fun he => hhd he.symm)]

theorem getAttr_applyUpdates_of_mem (updates : List (String × String)) (it : Item)
    (k v : String) (hnd : (updates.map Prod.fst).Nodup) (hmem : (k, v) ∈ updates)
    (h1 : k ≠ "appointmentId") (h2 : k ≠ "createdAt") :
    getAttr (applyUpdates it updates) k = some v := by
  induction updates generalizing it with
  | nil => cases hmem
  | cons hd tl ih =>
    simp only [List.map_cons, List.nodup_cons] at hnd
    rcases List.mem_cons.mp hmem with heq | htl
    · subst heq
      simp only [applyUpdates, List.foldl_cons]
      rw [if_neg (by simp [h1, h2])]
      have : ∀ p ∈ tl, p.1 ≠ k := by
        intro p hp he
        have hm : p.1 ∈ tl.map Prod.fst := List.mem_map_of_mem _ hp
        exact hnd.1 (he ▸ hm)
      have := getAttr_applyUpdates_of_forall_ne tl (setAttr it k v) k this
      simp only [applyUpdates] at this
      rw [this, getAttr_setAttr_self]
    · simp only [applyUpdates, List.foldl_cons]
      by_cases hskip : (hd.1 == "appointmentId" || hd.1 == "createdAt") = true
      · rw [if_pos hskip]; exact ih _ hnd.2 htl
      · rw [if_neg hskip]; exact ih _ hnd.2 htl

theorem getAttr_applyUpdates_skipKey (updates : List (String × String)) (it : Item)
    (k : String) (hk : k = "appointmentId" ∨ k = "createdAt") :
    getAttr (applyUpdates it updates) k = getAttr it k := by
  induction updates generalizing it with
  | nil => rfl
  | cons hd tl ih =>
    simp only [applyUpdates, List.foldl_cons] at *
    by_cases hskip : (hd.1 == "appointmentId" || hd.1 == "createdAt") = true
    · rw [if_pos hskip]; exact ih it
    · rw [if_neg hskip]
      rw [ih, getAttr_setAttr_ne]
      have hs := hskip
      simp only [Bool.or_eq_true, beq_iff_eq, not_or] at hs
      intro he
      rcases hk with h | h
      · exact hs.1 (he.symm.trans h)
      · exact hs.2 (he.symm.trans h)

theorem lookup_eq_none_forall (l : List (String × String)) (k : String)
    (h : l.lookup k = none) : ∀ p ∈ l, p.1 ≠ k := by
  induction l with
  | nil => intro p hp; cases hp
  | cons hd tl ih =>
    intro p hp
    rcases List.mem_cons.mp hp with heq | htl
    · subst heq
      intro he
      simp [List.lookup, he] at h
    · refine ih ?_ p htl
      by_cases hke : (k == hd.1) = true
      · simp [List.lookup, hke] at h
      · simpa [List.lookup, hke] using h

theorem mem_slotTimes_aux (dur : Nat) (hdur : 0 < dur) (finish : Nat) :
    ∀ n start, finish - start ≤ n → ∀ t,
      (t ∈ slotTimes dur finish start ↔ ∃ k, t = start + dur * k ∧ t < finish) := by
  intro n
  induction n with
  | zero =>
    intro start h t
    rw [slotTimes, if_neg (by omega)]
    constructor
    · intro hmem; cases hmem
    · rintro ⟨k, rfl, hk⟩
      have := Nat.le_add_right start (dur * k)
      omega
  | succ n ih =>
    intro start h t
    rw [slotTimes]
    by_cases hlt : start < finish
    · rw [if_pos hlt, if_neg (by omega)]
      rw [List.mem_cons, ih (start + dur) (by omega) t]
      constructor
      · rintro (rfl | ⟨k, rfl, hk⟩)
        · exact ⟨0, by ring, hlt⟩
        · exact ⟨k + 1, by ring, hk⟩
      · rintro ⟨k, rfl, hk⟩
        cases k with
        | zero => left; simp
        | succ j => right; exact ⟨j, by ring, hk⟩
    · rw [if_neg hlt]
      constructor
      · intro hmem; cases hmem
      · rintro ⟨k, rfl, hk⟩
        have := Nat.le_add_right start (dur * k)
        omega

theorem mem_slotTimes (dur finish start t : Nat) (hdur : 0 < dur) :
    t ∈ slotTimes dur finish start ↔ ∃ k, t = start + dur * k ∧ t < finish :=
  mem_slotTimes_aux dur hdur finish (finish - start) start (Nat.le_refl _) t

theorem slotTimes_concrete : slotTimes 30 1020 540 =
    [540, 570, 600, 630, 660, 690, 720, 750, 780, 810, 840, 870, 900, 930, 960, 990] := by
  simp [slotTimes]

/-! ### C4 -/

/-- C4: for working hours 09:00-17:00 (540-1020 minutes) with
slotDuration 30 and no bookings, `computeAvailableSlots` returns exactly
the 16 slots 09:00 … 16:30, strictly ascending, none at or after 17:00;
in general a time is a candidate iff it is `start + k * dur` for some
`k` and lies strictly before the end of the working hours. -/
theorem computeAvailableSlots_generation :
    computeAvailableSlots 540 1020 30 [] =
      ["09:00", "09:30", "10:00", "10:30", "11:00", "11:30", "12:00", "12:30",
       "13:00", "13:30", "14:00", "14:30", "15:00", "15:30", "16:00", "16:30"] ∧
    (computeAvailableSlots 540 1020 30 []).length = 16 ∧
    List.Chain' (fun a b : String => a < b) (computeAvailableSlots 540 1020 30 []) ∧
    (∀ start finish dur t, 0 < dur →
      (t ∈ slotTimes dur finish start ↔ ∃ k, t = start + dur * k ∧ t < finish)) := by
  have hconc : computeAvailableSlots 540 1020 30 [] =
      ["09:00", "09:30", "10:00", "10:30", "11:00", "11:30", "12:00", "12:30",
       "13:00", "13:30", "14:00", "14:30", "15:00", "15:30", "16:00", "16:30"] := by
    rw [computeAvailableSlots, slotTimes_concrete]; rfl
  refine ⟨hconc, by rw [hconc]; rfl, ?_, fun start finish dur t h => mem_slotTimes dur finish start t h⟩
  rw [hconc]
  simp only [List.chain'_cons, List.chain'_singleton, and_true]
  refine ⟨?_, ?_, ?_, ?_, ?_, ?_, ?_, ?_, ?_, ?_, ?_, ?_, ?_, ?_, ?_⟩ <;>
    exact String.lt_iff_toList_lt.mpr (by decide)

/-- Witness for C4: the general candidate characterization applied at a
concrete grid: 10:30 (630) is offered for 10:00-12:00 hours on a
30-minute grid. -/
theorem computeAvailableSlots_generation_witness :
    0 < 30 ∧ (630 ∈ slotTimes 30 720 600 ↔ ∃ k, 630 = 600 + 30 * k ∧ 630 < 720) :=
  ⟨by decide, computeAvailableSlots_generation.2.2.2 600 720 30 630 (by decide)⟩

theorem filter_ne_nil_iff (p : Item → Bool) (l : List Item) :
    l.filter p ≠ [] ↔ ∃ it ∈ l, p it = true := by
  rw [Ne, List.filter_eq_nil_iff]
  push_neg
  simp

theorem excludeMatch_iff (it : Item) (cid : String) :
    ((match getAttr it "appointmentId" with
      | some x => !(x == cid)
      | none => false) = true) ↔
      ∃ aid, getAttr it "appointmentId" = some aid ∧ aid ≠ cid := by
  cases h : getAttr it "appointmentId" <;> simp [h]

/-! ### C1 -/

/-- C1 counterexample: in a store whose only appointment is cancelled,
the Create conflict check still fires — refuting "an appointment whose
status is 'cancelled' is never counted as a conflict" and the claimed
iff against status = 'scheduled' appointments. -/
theorem conflictCheck_counts_cancelled :
    (∀ it ∈ cancelledOnly, getAttr it "status" = some "cancelled") ∧
    createConflictQuery cancelledOnly "d1" "2024-06-01" "10:00" ≠ [] ∧
    createAppointment cancelledOnly "p3" "d1" "2024-06-01" "10:00" "checkup" "" "F1" "T5" =
      .error .conflictError :=
  ⟨by decide, by decide, rfl⟩

/-- C1 amended: the conflict checks ignore `status` entirely.  Create's
check fires iff some appointment — scheduled or cancelled — for the same
(doctorId, appointmentDate) has the candidate appointmentTime, with no
identifier exclusion; Update's check additionally requires an
`appointmentId` different from the record's own. -/
theorem conflictQuery_characterization (store : Store) (d dt t cid : String) :
    (createConflictQuery store d dt t ≠ [] ↔
      ∃ it ∈ store, getAttr it "doctorId" = some d ∧
        getAttr it "appointmentDate" = some dt ∧
        getAttr it "appointmentTime" = some t) ∧
    (updateConflictQuery store d dt t cid ≠ [] ↔
      ∃ it ∈ store, getAttr it "doctorId" = some d ∧
        getAttr it "appointmentDate" = some dt ∧
        getAttr it "appointmentTime" = some t ∧
        ∃ aid, getAttr it "appointmentId" = some aid ∧ aid ≠ cid) := by
  constructor
  · rw [createConflictQuery, filter_ne_nil_iff]
    simp only [Bool.and_eq_true, beq_iff_eq, and_assoc]
  · rw [updateConflictQuery, filter_ne_nil_iff]
    simp only [Bool.and_eq_true, beq_iff_eq, excludeMatch_iff, and_assoc]

/-! ### C2 -/

theorem getAttr_cancelTransform (reason now : String) (it : Item) (k : String)
    (h1 : k ≠ "status") (h2 : k ≠ "cancellationReason") (h3 : k ≠ "updatedAt") :
    getAttr (cancelTransform reason now it) k = getAttr it k := by
  rw [cancelTransform, getAttr_setAttr_ne _ _ _ _ h3, getAttr_setAttr_ne _ _ _ _ h2,
    getAttr_setAttr_ne _ _ _ _ h1]

theorem bookedSlots_map_preserve (store : Store) (f : Item → Item)
    (h : ∀ it, getAttr (f it) "doctorId" = getAttr it "doctorId" ∧
      getAttr (f it) "appointmentDate" = getAttr it "appointmentDate" ∧
      getAttr (f it) "appointmentTime" = getAttr it "appointmentTime")
    (doc date : String) :
    bookedSlots (store.map f) doc date = bookedSlots store doc date := by
  induction store with
  | nil => rfl
  | cons it rest ih =>
    obtain ⟨h1, h2, h3⟩ := h it
    simp only [bookedSlots, List.map_cons, List.filter_cons] at ih ⊢
    rw [h1, h2]
    by_cases hq : (getAttr it "doctorId" == some doc &&
        getAttr it "appointmentDate" == some date) = true
    · rw [if_pos hq, if_pos hq]
      simp only [List.map_cons]
      rw [h3]
      exact congrArg _ ih
    · rw [if_neg hq, if_neg hq]
      exact ih

theorem bookedSlots_cancel (store : Store) (id : String) (r : Option String)
    (now doc date : String) :
    bookedSlots (cancelAppointment store id r now).1 doc date = bookedSlots store doc date := by
  cases hfind : store.find? (idMatches id) with
  | some existing =>
    simp only [cancelAppointment, hfind]
    refine bookedSlots_map_preserve store _ (fun it => ?_) doc date
    by_cases hid : idMatches id it = true
    · simp only [if_pos hid]
      exact ⟨getAttr_cancelTransform _ _ _ _ (by decide) (by decide) (by decide),
        getAttr_cancelTransform _ _ _ _ (by decide) (by decide) (by decide),
        getAttr_cancelTransform _ _ _ _ (by decide) (by decide) (by decide)⟩
    · simp only [if_neg hid]
      exact ⟨trivial, trivial, trivial⟩
  | none =>
    simp only [cancelAppointment, hfind]
    rw [bookedSlots, bookedSlots, List.filter_append]
    have hskip : List.filter
        (fun it => getAttr it "doctorId" == some doc &&
          getAttr it "appointmentDate" == some date)
        [cancelTransform (cancelReason r) now [("appointmentId", id)]] = [] := by
      simp [cancelTransform, setAttr, getAttr, List.lookup, List.filter]
    rw [hskip, List.append_nil]

/-- Concrete evaluation of the slot loop for a 09:00-11:00 window. -/
theorem slotTimes_short : slotTimes 30 660 540 = [540, 570, 600, 630] := by
  simp [slotTimes]

/-- C2 counterexample: cancelling the appointment at 10:00 does not make
10:00 reappear — the availability query ignores `status`, so the
now-cancelled appointment still blocks its slot. -/
theorem cancelledAppointment_still_blocks_slot :
    getAttr ((cancelAppointment [apptA1] "A1" none "T1").2) "status" = some "cancelled" ∧
    "10:00" ∉ getAvailableSlots (cancelAppointment [apptA1] "A1" none "T1").1
      "d1" "2024-06-01" 540 660 (some 30) := by
  constructor
  · rfl
  · have hconc : getAvailableSlots (cancelAppointment [apptA1] "A1" none "T1").1
        "d1" "2024-06-01" 540 660 (some 30) = ["09:00", "09:30", "10:30"] := by
      rw [getAvailableSlots, computeAvailableSlots,
        show effSlotDuration (some 30) = 30 from rfl, slotTimes_short]
      rfl
    rw [hconc]
    decide

/-- C2 amended: a candidate is excluded iff its formatted value equals
the `appointmentTime` of some appointment for that doctor and date
*regardless of status*; consequently cancelling an appointment leaves
the output of `computeAvailableSlots` unchanged — the slot does not
reappear. -/
theorem availableSlots_status_blind :
    (∀ (store : Store) (doc date : String) (startM finishM : Nat) (dur : Option Nat)
        (t : String),
      t ∈ getAvailableSlots store doc date startM finishM dur ↔
        (t ∈ (slotTimes (effSlotDuration dur) finishM startM).map minutesToHHMM ∧
          ¬ ∃ it ∈ store, getAttr it "doctorId" = some doc ∧
            getAttr it "appointmentDate" = some date ∧
            getAttr it "appointmentTime" = some t)) ∧
    (∀ (store : Store) (id : String) (r : Option String) (now doc date : String)
        (startM finishM : Nat) (dur : Option Nat),
      getAvailableSlots (cancelAppointment store id r now).1 doc date startM finishM dur =
        getAvailableSlots store doc date startM finishM dur) := by
  constructor
  · intro store doc date startM finishM dur t
    rw [getAvailableSlots, computeAvailableSlots, List.mem_filter]
    refine and_congr_right fun _ => ?_
    have hb : (some t ∈ bookedSlots store doc date) ↔
        ∃ it ∈ store, getAttr it "doctorId" = some doc ∧
          getAttr it "appointmentDate" = some date ∧
          getAttr it "appointmentTime" = some t := by
      rw [bookedSlots]
      simp only [List.mem_map, List.mem_filter, Bool.and_eq_true, beq_iff_eq]
      constructor
      · rintro ⟨it, ⟨hmem, hdoc, hdate⟩, htime⟩
        exact ⟨it, hmem, hdoc, hdate, htime⟩
      · rintro ⟨it, hmem, hdoc, hdate, htime⟩
        exact ⟨it, ⟨hmem, hdoc, hdate⟩, htime⟩
    have hcm : ((bookedSlots store doc date).contains (some t) = true) ↔
        some t ∈ bookedSlots store doc date := by simp
    calc ((!(bookedSlots store doc date).contains (some t)) = true)
        ↔ ¬((bookedSlots store doc date).contains (some t) = true) := by simp
      _ ↔ ¬(some t ∈ bookedSlots store doc date) := not_congr hcm
      _ ↔ _ := not_congr hb
  · intro store id r now doc date startM finishM dur
    rw [getAvailableSlots, getAvailableSlots, bookedSlots_cancel]

/-! ### C3 -/

/-- C3: cancelling an identifier absent from the store does NOT fail
with NotFoundError and does NOT leave the store unchanged: the
unconditional `UpdateCommand` upserts, creating a fresh record carrying
only the key and the written attributes (evaluated here at the failing
input: id "A9" against the empty store). -/
theorem cancel_nonexistent_creates_record :
    (cancelAppointment ([] : Store) "A9" none "T1").1.length = 1 ∧
    getAttr ((cancelAppointment ([] : Store) "A9" none "T1").2) "appointmentId" = some "A9" ∧
    getAttr ((cancelAppointment ([] : Store) "A9" none "T1").2) "status" = some "cancelled" ∧
    getAttr ((cancelAppointment ([] : Store) "A9" none "T1").2) "cancellationReason" =
      some "No reason provided" ∧
    (cancelAppointment ([] : Store) "A9" none "T1").2 ∈
      (cancelAppointment ([] : Store) "A9" none "T1").1 :=
  ⟨rfl, rfl, rfl, rfl, List.mem_singleton.mpr rfl⟩

/-! ### C5 -/

/-- C5 counterexample: a payload changing only `doctorId` — moving A1
onto doctor d2, who already has a scheduled appointment B1 at the same
date and time — runs no conflict check and succeeds, even though the
Update conflict query itself would have found the collision. -/
theorem doctorIdOnly_update_skips_conflict :
    updateConflictQuery twoDoctorStore "d2" "2024-06-01" "10:00" "A1" ≠ [] ∧
    (updateAppointment twoDoctorStore "A1" [("doctorId", "d2")] "T9").isOk = true :=
  ⟨by decide, rfl⟩

/-- C5 amended: the Update conflict check runs iff the payload supplies
a truthy `appointmentDate` or `appointmentTime`; a payload changing only
`doctorId` triggers no check and can never yield ConflictError.  When
the check does run it targets the effective (doctor, date, time) —
payload value when truthy, else the stored one — excluding the record's
own identifier, and a collision fails the update with ConflictError. -/
theorem updateConflictCheck_condition :
    (∀ (store : Store) (id : String) (updates : List (String × String)) (now : String),
      truthy (updates.lookup "appointmentDate") = false →
      truthy (updates.lookup "appointmentTime") = false →
      updateAppointment store id updates now ≠ .error .conflictError) ∧
    (∀ (store : Store) (id : String) (updates : List (String × String)) (now : String)
        (existing : Item) (d dt t : String),
      store.find? (idMatches id) = some existing →
      (truthy (updates.lookup "appointmentDate") = true ∨
        truthy (updates.lookup "appointmentTime") = true) →
      jsOr (updates.lookup "doctorId") (getAttr existing "doctorId") = some d →
      jsOr (updates.lookup "appointmentDate") (getAttr existing "appointmentDate") = some dt →
      jsOr (updates.lookup "appointmentTime") (getAttr existing "appointmentTime") = some t →
      updateConflictQuery store d dt t id ≠ [] →
      updateAppointment store id updates now = .error .conflictError) := by
  constructor
  · intro store id updates now hdate htime
    rw [updateAppointment]
    cases hfind : store.find? (idMatches id) with
    | none => simp
    | some existing =>
      simp only [hdate, htime, Bool.or_self, Bool.false_eq_true, if_false]
      by_cases hup : (updates.lookup "updatedAt").isSome = true
      · simp [performWrite, hup]
      · simp [performWrite, hup]
  · intro store id updates now existing d dt t hfind hor h1 h2 h3 hconf
    have hcond : (truthy (updates.lookup "appointmentDate") ||
        truthy (updates.lookup "appointmentTime")) = true := by
      rcases hor with h | h <;> simp [h]
    have hne : (updateConflictQuery store d dt t id).isEmpty = false := by
      cases hq : (updateConflictQuery store d dt t id).isEmpty
      · rfl
      · exact absurd (List.isEmpty_iff.mp hq) hconf
    rw [updateAppointment, hfind]
    simp only [hcond, if_true, h1, h2, h3, hne]
    rfl

/-- Witness for C5 (amended): updating A1's `appointmentTime` to 10:00
in a store where C1 — a different appointment of the same doctor — also
holds 10:00 that day is rejected with ConflictError. -/
theorem updateConflictCheck_condition_witness :
    updateAppointment collisionStore "A1" [("appointmentTime", "10:00")] "T9" =
      .error .conflictError :=
  updateConflictCheck_condition.2 collisionStore "A1" [("appointmentTime", "10:00")] "T9"
    apptA1 "d1" "2024-06-01" "10:00" rfl (Or.inr (by decide)) rfl rfl rfl (by decide)

/-! ### C6 -/

/-- C6: an Update writing the appointment's own `appointmentDate` and
`appointmentTime` back is never rejected with ConflictError on account
of that appointment itself: the conflict query excludes the record's own
identifier, so as long as every colliding appointment on that date and
time IS the record itself, no ConflictError arises. -/
theorem update_own_slot_no_self_conflict (store : Store) (id now dt t : String)
    (existing : Item) (hfind : store.find? (idMatches id) = some existing)
    (hdt : getAttr existing "appointmentDate" = some dt)
    (ht : getAttr existing "appointmentTime" = some t)
    (honly : ∀ it ∈ store, getAttr it "appointmentDate" = some dt →
      getAttr it "appointmentTime" = some t → getAttr it "appointmentId" = some id) :
    updateAppointment store id [("appointmentDate", dt), ("appointmentTime", t)] now ≠
      .error .conflictError := by
  have e1 : ([("appointmentDate", dt), ("appointmentTime", t)] :
      List (String × String)).lookup "appointmentDate" = some dt := rfl
  have e2 : ([("appointmentDate", dt), ("appointmentTime", t)] :
      List (String × String)).lookup "appointmentTime" = some t := rfl
  have e3 : ([("appointmentDate", dt), ("appointmentTime", t)] :
      List (String × String)).lookup "doctorId" = none := rfl
  have e4 : ([("appointmentDate", dt), ("appointmentTime", t)] :
      List (String × String)).lookup "updatedAt" = none := rfl
  have jself : ∀ a : Option String, jsOr a a = a := fun a => by
    rw [jsOr]; exact ite_self a
  rw [updateAppointment, hfind]
  simp only [e1, e2, e3, e4, hdt, ht]
  rw [show jsOr none (getAttr existing "doctorId") = getAttr existing "doctorId" from rfl,
    jself, jself]
  cases hdoc : getAttr existing "doctorId" with
  | none =>
    by_cases hcond : (truthy (some dt) || truthy (some t)) = true
    · simp [hcond]
    · simp [hcond, performWrite, e4]
  | some d =>
    have hquery : updateConflictQuery store d dt t id = [] := by
      rw [updateConflictQuery, List.filter_eq_nil_iff]
      intro it hit
      simp only [Bool.and_eq_true, beq_iff_eq, excludeMatch_iff, not_and]
      rintro ⟨⟨hdoc', hdate'⟩, htime'⟩ ⟨aid, haid, hne⟩
      rw [honly it hit hdate' htime'] at haid
      exact hne (Option.some_inj.mp haid.symm)
    by_cases hcond : (truthy (some dt) || truthy (some t)) = true
    · simp [hcond, hquery, performWrite, e4]
    · simp [hcond, performWrite, e4]

/-- Witness for C6: rewriting A1's own date and time in a one-element
store is accepted. -/
theorem update_own_slot_no_self_conflict_witness :
    updateAppointment [apptA1] "A1"
      [("appointmentDate", "2024-06-01"), ("appointmentTime", "10:00")] "T3" ≠
      .error .conflictError :=
  update_own_slot_no_self_conflict [apptA1] "A1" "T3" "2024-06-01" "10:00" apptA1
    rfl rfl rfl (by decide)

/-! ### C7 -/

theorem performWrite_ok (store : Store) (id : String) (existing : Item)
    (updates : List (String × String)) (now : String) (s' : Store) (a' : Item)
    (h : performWrite store id existing updates now = .ok (s', a')) :
    a' = updatedRecord existing updates now ∧ updates.lookup "updatedAt" = none ∧
    s' = store.map (fun it => if idMatches id it then updatedRecord it updates now else it) := by
  rw [performWrite] at h
  by_cases hup : (updates.lookup "updatedAt").isSome = true
  · rw [if_pos hup] at h
    simp at h
  · rw [if_neg hup] at h
    have hnone : updates.lookup "updatedAt" = none := by
      cases hcase : updates.lookup "updatedAt" with
      | none => rfl
      | some v => rw [hcase] at hup; exact absurd rfl hup
    simp only [Except.ok.injEq, Prod.mk.injEq] at h
    exact ⟨h.2.symm, hnone, h.1.symm⟩

/-- C7: on every successful Update, `appointmentId` and `createdAt` of
the returned (and written) record equal the stored ones even when the
payload supplies them; `updatedAt` is the fresh timestamp; every other
supplied field overwrites the stored value; every field not supplied
(and other than `updatedAt`) keeps its prior value; and only the item
with the target identifier is rewritten in the store. -/
theorem updateAppointment_frame (store : Store) (id : String)
    (updates : List (String × String)) (now : String) (existing : Item)
    (s' : Store) (a' : Item)
    (hfind : store.find? (idMatches id) = some existing)
    (hnd : (updates.map Prod.fst).Nodup)
    (hok : updateAppointment store id updates now = .ok (s', a')) :
    getAttr a' "appointmentId" = getAttr existing "appointmentId" ∧
    getAttr a' "createdAt" = getAttr existing "createdAt" ∧
    getAttr a' "updatedAt" = some now ∧
    (∀ k v, (k, v) ∈ updates → k ≠ "appointmentId" → k ≠ "createdAt" →
      getAttr a' k = some v) ∧
    (∀ k, k ≠ "updatedAt" → (∀ p ∈ updates, p.1 ≠ k) →
      getAttr a' k = getAttr existing k) ∧
    s' = store.map (fun it => if idMatches id it then updatedRecord it updates now else it) := by
  rw [updateAppointment, hfind] at hok
  simp only at hok
  have hkey : a' = updatedRecord existing updates now ∧ updates.lookup "updatedAt" = none ∧
      s' = store.map (fun it => if idMatches id it then updatedRecord it updates now else it) := by
    by_cases hcond : (truthy (updates.lookup "appointmentDate") ||
        truthy (updates.lookup "appointmentTime")) = true
    · rw [if_pos hcond] at hok
      cases hd : jsOr (updates.lookup "doctorId") (getAttr existing "doctorId") with
      | none => rw [hd] at hok; simp at hok
      | some d =>
        rw [hd] at hok
        cases hdt2 : jsOr (updates.lookup "appointmentDate")
            (getAttr existing "appointmentDate") with
        | none => rw [hdt2] at hok; simp at hok
        | some dt =>
          rw [hdt2] at hok
          cases ht2 : jsOr (updates.lookup "appointmentTime")
              (getAttr existing "appointmentTime") with
          | none => rw [ht2] at hok; simp at hok
          | some t =>
            rw [ht2] at hok
            simp only [] at hok
            by_cases hq : (!(updateConflictQuery store d dt t id).isEmpty) = true
            · rw [if_pos hq] at hok; simp at hok
            · rw [if_neg hq] at hok
              exact performWrite_ok _ _ _ _ _ _ _ hok
    · rw [if_neg hcond] at hok
      exact performWrite_ok _ _ _ _ _ _ _ hok
  obtain ⟨ha', hupnone, hs'⟩ := hkey
  subst ha'
  refine ⟨?_, ?_, ?_, ?_, ?_, hs'⟩
  · rw [updatedRecord, getAttr_applyUpdates_skipKey _ _ _ (Or.inl rfl),
      getAttr_setAttr_ne _ _ _ _ (by decide)]
  · rw [updatedRecord, getAttr_applyUpdates_skipKey _ _ _ (Or.inr rfl),
      getAttr_setAttr_ne _ _ _ _ (by decide)]
  · rw [updatedRecord,
      getAttr_applyUpdates_of_forall_ne _ _ _ (lookup_eq_none_forall updates _ hupnone),
      getAttr_setAttr_self]
  · intro k v hkv hk1 hk2
    rw [updatedRecord]
    exact getAttr_applyUpdates_of_mem updates _ k v hnd hkv hk1 hk2
  · intro k hkup hkforall
    rw [updatedRecord, getAttr_applyUpdates_of_forall_ne _ _ _ hkforall,
      getAttr_setAttr_ne _ _ _ _ hkup]

/-- Witness for C7: a payload carrying only `notes` leaves A1's
identifier and creation timestamp in place (first two conjuncts of the
frame theorem at a concrete input). -/
theorem updateAppointment_frame_witness :
    getAttr (updatedRecord apptA1 [("notes", "hello")] "T2") "appointmentId" =
      getAttr apptA1 "appointmentId" ∧
    getAttr (updatedRecord apptA1 [("notes", "hello")] "T2") "createdAt" =
      getAttr apptA1 "createdAt" ∧
    getAttr (updatedRecord apptA1 [("notes", "hello")] "T2") "updatedAt" = some "T2" := by
  have h := updateAppointment_frame [apptA1] "A1" [("notes", "hello")] "T2" apptA1
    ([apptA1].map (fun it => if idMatches "A1" it
      then updatedRecord it [("notes", "hello")] "T2" else it))
    (updatedRecord apptA1 [("notes", "hello")] "T2") rfl (by decide) rfl
  exact ⟨h.1, h.2.1, h.2.2.1⟩

/-! ### C8 -/

theorem listAt_cons_self (k : String) (l : List Item) (tl : List (String × List Item)) :
    listAt ((k, l) :: tl) k = l := by
  simp [listAt, List.find?]

theorem listAt_cons_ne (k : String) (l : List Item) (tl : List (String × List Item))
    (d' : String) (h : d' ≠ k) : listAt ((k, l) :: tl) d' = listAt tl d' := by
  have hb : (k == d') = false := beq_eq_false_iff_ne.mpr (fun he => h he.symm)
  simp [listAt, List.find?, hb]

theorem listAt_pushAppt (sched : List (String × List Item)) (d : String) (a : Item)
    (d' : String) :
    listAt (pushAppt sched d a) d' =
      if d' = d then listAt sched d' ++ [a] else listAt sched d' := by
  induction sched with
  | nil =>
    rw [pushAppt]
    by_cases h : d' = d
    · subst h
      rw [if_pos rfl, listAt_cons_self]
      rfl
    · rw [if_neg h, listAt_cons_ne _ _ _ _ h]
  | cons hd tl ih =>
    obtain ⟨k, l⟩ := hd
    rw [pushAppt]
    by_cases hk : k = d
    · rw [if_pos hk]
      by_cases h' : d' = k
      · subst h'
        rw [listAt_cons_self, if_pos hk, listAt_cons_self]
      · rw [listAt_cons_ne _ _ _ _ h', if_neg (fun he => h' (he.trans hk.symm)),
          listAt_cons_ne _ _ _ _ h']
    · rw [if_neg hk]
      by_cases h' : d' = k
      · subst h'
        rw [listAt_cons_self, if_neg hk, listAt_cons_self]
      · rw [listAt_cons_ne _ _ _ _ h', ih, listAt_cons_ne _ _ _ _ h']

theorem listAt_groupLoop (items : List Item) (sched : List (String × List Item)) (d : String) :
    listAt (items.foldl (fun sc it => pushAppt sc (dateKey it) it) sched) d =
      listAt sched d ++ items.filter (fun it => dateKey it == d) := by
  induction items generalizing sched with
  | nil => simp
  | cons it rest ih =>
    rw [List.foldl_cons, ih, listAt_pushAppt, List.filter_cons]
    by_cases h : d = dateKey it
    · rw [if_pos h, if_pos (beq_iff_eq.mpr h.symm)]
      simp [List.append_assoc]
    · rw [if_neg h, if_neg (by simp [beq_eq_false_iff_ne.mpr (fun he => h he.symm)])]

/-- C8: for present bounds, the schedule view groups exactly the
doctor's appointments with startDate ≤ appointmentDate ≤ endDate —
regardless of status — under their own date, each date's bucket being
the backing range query's output in query order. -/
theorem buildSchedule_groups (store : Store) (docId s e d : String) :
    listAt (buildSchedule store docId s e) d =
      (doctorRangeQuery store docId s e).filter
        (fun it => getAttr it "appointmentDate" == some d) ∧
    (∀ a, a ∈ listAt (buildSchedule store docId s e) d ↔
      (a ∈ store ∧ getAttr a "doctorId" = some docId ∧
        getAttr a "appointmentDate" = some d ∧ s ≤ d ∧ d ≤ e)) := by
  have hq : ∀ it ∈ doctorRangeQuery store docId s e,
      (dateKey it == d) = (getAttr it "appointmentDate" == some d) := by
    intro it hit
    rw [doctorRangeQuery, List.mem_filter] at hit
    obtain ⟨-, hpred⟩ := hit
    simp only [Bool.and_eq_true] at hpred
    cases hdate : getAttr it "appointmentDate" with
    | none => rw [hdate] at hpred; simp at hpred
    | some x => rw [dateKey, hdate]; rfl
  have h1 : listAt (buildSchedule store docId s e) d =
      (doctorRangeQuery store docId s e).filter
        (fun it => getAttr it "appointmentDate" == some d) := by
    rw [buildSchedule, groupByDate, listAt_groupLoop,
      show listAt [] d = [] from rfl, List.nil_append]
    exact List.filter_congr hq
  refine ⟨h1, fun a => ?_⟩
  rw [h1, List.mem_filter, doctorRangeQuery, List.mem_filter]
  constructor
  · rintro ⟨⟨hmem, hpred⟩, hdatebeq⟩
    have hdate : getAttr a "appointmentDate" = some d := beq_iff_eq.mp hdatebeq
    simp only [Bool.and_eq_true, beq_iff_eq] at hpred
    obtain ⟨hdoc, hrange⟩ := hpred
    rw [hdate] at hrange
    simp only [Bool.and_eq_true, decide_eq_true_eq] at hrange
    exact ⟨hmem, hdoc, hdate, hrange.1, hrange.2⟩
  · rintro ⟨hmem, hdoc, hdate, hs, he⟩
    refine ⟨⟨hmem, ?_⟩, beq_iff_eq.mpr hdate⟩
    simp only [Bool.and_eq_true, beq_iff_eq]
    refine ⟨hdoc, ?_⟩
    rw [hdate]
    simp [hs, he]

/-! ### C9 -/

/-- C9: Create fails with ValidationError (HTTP 400) when any of the
four required fields is empty, writing nothing; with all four non-empty
and no conflict it persists a record carrying a fresh identifier, the
supplied fields, status 'scheduled', and creation/update stamps. -/
theorem createAppointment_validation (store : Store)
    (pid did dt t ty nts freshId now : String) :
    ((pid = "" ∨ did = "" ∨ dt = "" ∨ t = "") →
      createAppointment store pid did dt t ty nts freshId now = .error .validationError) ∧
    (pid ≠ "" → did ≠ "" → dt ≠ "" → t ≠ "" →
      createConflictQuery store did dt t = [] →
      createAppointment store pid did dt t ty nts freshId now =
        .ok (putItem store (newAppointment pid did dt t ty nts freshId now),
          newAppointment pid did dt t ty nts freshId now) ∧
      getAttr (newAppointment pid did dt t ty nts freshId now) "appointmentId" = some freshId ∧
      getAttr (newAppointment pid did dt t ty nts freshId now) "patientId" = some pid ∧
      getAttr (newAppointment pid did dt t ty nts freshId now) "doctorId" = some did ∧
      getAttr (newAppointment pid did dt t ty nts freshId now) "appointmentDate" = some dt ∧
      getAttr (newAppointment pid did dt t ty nts freshId now) "appointmentTime" = some t ∧
      getAttr (newAppointment pid did dt t ty nts freshId now) "status" = some "scheduled" ∧
      getAttr (newAppointment pid did dt t ty nts freshId now) "createdAt" = some now ∧
      getAttr (newAppointment pid did dt t ty nts freshId now) "updatedAt" = some now ∧
      newAppointment pid did dt t ty nts freshId now ∈
        putItem store (newAppointment pid did dt t ty nts freshId now)) := by
  constructor
  · intro h
    have hc : (pid == "" || did == "" || dt == "" || t == "") = true := by
      rcases h with h | h | h | h <;> simp [h]
    rw [createAppointment, if_pos hc]
  · intro h1 h2 h3 h4 hq
    have hc : (pid == "" || did == "" || dt == "" || t == "") = false := by
      rw [beq_eq_false_iff_ne.mpr h1, beq_eq_false_iff_ne.mpr h2,
        beq_eq_false_iff_ne.mpr h3, beq_eq_false_iff_ne.mpr h4]
      rfl
    refine ⟨?_, rfl, rfl, rfl, rfl, rfl, rfl, rfl, rfl, List.mem_cons_self _ _⟩
    rw [createAppointment]
    simp [hc, hq]

/-- Witness for C9: both branches at concrete inputs — a Create missing
`patientId` is rejected with ValidationError, and a Create of p1 with
doctor d9 on an empty store succeeds with the expected record. -/
theorem createAppointment_validation_witness :
    createAppointment ([] : Store) "" "d9" "2024-07-01" "09:00" "ty" "n" "F2" "T6" =
      .error .validationError ∧
    createAppointment ([] : Store) "p1" "d9" "2024-07-01" "09:00" "ty" "n" "F2" "T6" =
      .ok (putItem [] (newAppointment "p1" "d9" "2024-07-01" "09:00" "ty" "n" "F2" "T6"),
        newAppointment "p1" "d9" "2024-07-01" "09:00" "ty" "n" "F2" "T6") :=
  ⟨(createAppointment_validation [] "" "d9" "2024-07-01" "09:00" "ty" "n" "F2" "T6").1
      (Or.inl rfl),
    ((createAppointment_validation [] "p1" "d9" "2024-07-01" "09:00" "ty" "n" "F2" "T6").2
      (by decide) (by decide) (by decide) (by decide) rfl).1⟩

/-! ### C10 -/

/-- C10: records written by Create carry the attribute `status`, never
`appointmentStatus`; Cancel preserves the absence of
`appointmentStatus`; and the by-doctor query's status filter compares
the attribute `appointmentStatus`, so over any store of engine-written
records it returns nothing. -/
theorem statusFilter_never_matches :
    (∀ (store : Store) (pid did dt t ty nts freshId now : String) (s' : Store) (a : Item),
      createAppointment store pid did dt t ty nts freshId now = .ok (s', a) →
      getAttr a "appointmentStatus" = none) ∧
    (∀ (store : Store) (id : String) (r : Option String) (now : String),
      (∀ it ∈ store, getAttr it "appointmentStatus" = none) →
      getAttr (cancelAppointment store id r now).2 "appointmentStatus" = none) ∧
    (∀ (store : Store) (docId : String) (date status : Option String),
      truthy status = true →
      (∀ it ∈ store, getAttr it "appointmentStatus" = none) →
      getDoctorAppointments store docId date status = []) := by
  refine ⟨?_, ?_, ?_⟩
  · intro store pid did dt t ty nts freshId now s' a hok
    simp only [createAppointment] at hok
    split at hok
    · exact Except.noConfusion hok
    · split at hok
      · exact Except.noConfusion hok
      · simp only [Except.ok.injEq, Prod.mk.injEq] at hok
        rw [← hok.2]
        rfl
  · intro store id r now h
    cases hfind : store.find? (idMatches id) with
    | some existing =>
      simp only [cancelAppointment, hfind]
      rw [getAttr_cancelTransform _ _ _ _ (by decide) (by decide) (by decide)]
      exact h existing (List.mem_of_find?_eq_some hfind)
    | none =>
      simp only [cancelAppointment, hfind]
      rfl
  · intro store docId date status htr h
    rw [getDoctorAppointments]
    simp only [htr, if_true]
    rw [List.filter_eq_nil_iff]
    intro it hit
    rw [h it (List.mem_filter.mp hit).1]
    cases status with
    | none => simp [truthy] at htr
    | some sv => simp

/-- Witness for C10: filtering doctor d1's appointments by
status 'scheduled' returns nothing even though the store holds d1's
scheduled appointment A1. -/
theorem statusFilter_never_matches_witness :
    getDoctorAppointments [apptA1] "d1" none (some "scheduled") = [] :=
  statusFilter_never_matches.2.2 [apptA1] "d1" none (some "scheduled") (by decide) (by decide)

end AwsBackend
